import Mathlib

/-!
Shallow embedding of the WebRTC peer-negotiation engine of the
`connectify_front` repository (file `src/pages/meeting/hooks/useWebRTC.ts`,
and the media-control surface in `src/webrtc/useMediaControls.ts`).

The engine's mutable refs (`peerConnections`, `makingOffer`,
`pendingIceCandidates`, `pendingSignals`, `isStreamReady`, `localStream`,
`localSocketId`) become fields of an explicit `Engine` state record; socket
emissions become a returned list of outbound messages.  The browser's
`RTCPeerConnection` is modelled by a `PC` record together with the standard
offer/answer signaling-state machine for its primitives
(`setLocalDescription`, `setRemoteDescription`, `createOffer`,
`createAnswer`, `addIceCandidate`, `addTrack`), each returning `Except` to
model rejected promises / thrown DOM exceptions; `await` points inside a
`try` block commit the mutations performed so far, which the embedding
mirrors by threading the engine state through every step.
-/

namespace ConnectifyWebRTC

/-- Kind of a media track (`MediaStreamTrack.kind`). -/
inductive TrackKind
  | audio
  | video
deriving DecidableEq, Repr

/-- A media track: identity (`track.id`), kind, and its `enabled` flag. -/
structure Track where
  tid : String
  kind : TrackKind
  enabled : Bool
deriving DecidableEq, Repr

/-- Session-description type (`RTCSessionDescription.type`). -/
inductive SdpType
  | offer
  | answer
  | rollback
deriving DecidableEq, Repr

/-- A session description: its type and whether it was created with the
`iceRestart` option (the only SDP content the engine inspects). -/
structure SessionDescription where
  sdpType : SdpType
  iceRestart : Bool
deriving DecidableEq, Repr

/-- The standard `RTCPeerConnection.signalingState` values used by the code. -/
inductive SignalingState
  | stable
  | haveLocalOffer
  | haveRemoteOffer
  | closed
deriving DecidableEq, Repr

/-- The standard `RTCPeerConnection.connectionState` values. -/
inductive ConnectionState
  | new
  | connecting
  | connected
  | disconnected
  | failed
  | closed
deriving DecidableEq, Repr

/-- An ICE candidate; `valid` models whether the underlying transport
accepts it (`addIceCandidate` resolves) or rejects it. -/
structure IceCandidate where
  cid : Nat
  valid : Bool
deriving DecidableEq, Repr

/-- Model of one `RTCPeerConnection`.  `senders` is the track list held by
`getSenders()`; `appliedCandidates` records the candidates accepted by
`addIceCandidate`, in application order. -/
structure PC where
  signalingState : SignalingState
  connectionState : ConnectionState
  localDescription : Option SessionDescription
  remoteDescription : Option SessionDescription
  senders : List Track
  appliedCandidates : List IceCandidate
deriving DecidableEq, Repr

/-- Payload of a `signal` message: `{ sdp }` or `{ candidate }`. -/
inductive SignalData
  | sdp (d : SessionDescription)
  | candidate (c : IceCandidate)
deriving DecidableEq, Repr

/-- An outbound `socket.emit("signal", { to, data })` message. -/
structure OutMsg where
  dest : String
  data : SignalData
deriving DecidableEq, Repr

/-! ### Association-list helpers

The engine keeps its per-peer maps (`Record<string, ...>`) as association
lists; `lookupA` is indexing, `setA` is keyed assignment. -/

/-- Look up a key in an association list (JS object indexing). -/
def lookupA {α : Type} (k : String) : List (String × α) → Option α
  | [] => none
  | (k', v) :: t => if k' = k then some v else lookupA k t

/-- Set a key in an association list (JS object keyed assignment). -/
def setA {α : Type} (k : String) (v : α) : List (String × α) → List (String × α)
  | [] => [(k, v)]
  | (k', v') :: t => if k' = k then (k, v) :: t else (k', v') :: setA k v t

theorem lookupA_setA_self {α : Type} (k : String) (v : α) (l : List (String × α)) :
    lookupA k (setA k v l) = some v := by
  induction l with
  | nil => simp [lookupA, setA]
  | cons h t ih =>
    obtain ⟨k', v'⟩ := h
    by_cases hk : k' = k
    · simp [lookupA, setA, hk]
    · simp [lookupA, setA, hk, ih]

theorem lookupA_setA_of_ne {α : Type} {k k' : String} (h : k' ≠ k) (v : α)
    (l : List (String × α)) : lookupA k (setA k' v l) = lookupA k l := by
  induction l with
  | nil => simp [lookupA, setA, h]
  | cons hd t ih =>
    obtain ⟨k'', v''⟩ := hd
    by_cases hk : k'' = k'
    · subst hk
      simp [lookupA, setA, h]
    · by_cases hk2 : k'' = k
      · subst hk2
        simp [lookupA, setA, hk]
      · simp [lookupA, setA, hk, hk2, ih]

/-! ### List indexing helpers (for the connection store) -/

theorem list_get_set_self {α : Type} (l : List α) (i : Nat) (a : α)
    (h : i < l.length) : (l.set i a)[i]? = some a := by
  induction l generalizing i with
  | nil => simp at h
  | cons x t ih =>
    cases i with
    | zero => simp
    | succ n =>
      simp only [List.set, List.getElem?_cons_succ]
      exact ih n (by simpa using h)

theorem list_get_set_of_ne {α : Type} (l : List α) {i j : Nat} (a : α)
    (h : i ≠ j) : (l.set i a)[j]? = l[j]? := by
  induction l generalizing i j with
  | nil => simp
  | cons x t ih =>
    cases i with
    | zero =>
      cases j with
      | zero => exact absurd rfl h
      | succ m => simp
    | succ n =>
      cases j with
      | zero => simp
      | succ m =>
        simp only [List.set, List.getElem?_cons_succ]
        exact ih (fun hnm => h (by omega))

theorem list_get_append_self {α : Type} (l : List α) (a : α) :
    (l ++ [a])[l.length]? = some a := by
  induction l with
  | nil => simp
  | cons x t ih =>
    simp only [List.cons_append, List.length_cons, List.getElem?_cons_succ]
    exact ih

theorem list_get_append_lt {α : Type} (l : List α) (a : α) {j : Nat}
    (h : j < l.length) : (l ++ [a])[j]? = l[j]? := by
  induction l generalizing j with
  | nil => simp at h
  | cons x t ih =>
    cases j with
    | zero => simp
    | succ m =>
      simp only [List.cons_append, List.getElem?_cons_succ]
      exact ih (by simpa using h)

/-! ### RTCPeerConnection primitives

Standard behaviour of the offer/answer signaling state machine, as the spec
treats the underlying transport ("standard offer/create-answer/
set-description/add-candidate primitives ... treated as given"):

* `setLocalDescription`/`setRemoteDescription` succeed only from the states
  the W3C state machine allows, and reject with `InvalidStateError`
  otherwise — in particular a `rollback` description is rejected in the
  `stable` and `closed` states;
* `createOffer`/`addTrack`/`addIceCandidate` reject on a closed connection;
* `addIceCandidate` rejects when no remote description is set or when the
  transport rejects the candidate (`valid = false`). -/

/-- `pc.setLocalDescription(d)`. -/
def setLocalDescriptionPC (pc : PC) (d : SessionDescription) : Except Unit PC :=
  match d.sdpType with
  | .rollback =>
    match pc.signalingState with
    | .haveLocalOffer =>
      .ok { pc with signalingState := .stable, localDescription := none }
    | .haveRemoteOffer =>
      .ok { pc with signalingState := .stable, remoteDescription := none }
    | _ => .error ()
  | .offer =>
    match pc.signalingState with
    | .stable =>
      .ok { pc with signalingState := .haveLocalOffer, localDescription := some d }
    | .haveLocalOffer =>
      .ok { pc with signalingState := .haveLocalOffer, localDescription := some d }
    | _ => .error ()
  | .answer =>
    match pc.signalingState with
    | .haveRemoteOffer =>
      .ok { pc with signalingState := .stable, localDescription := some d }
    | _ => .error ()

/-- `pc.setRemoteDescription(d)`. -/
def setRemoteDescriptionPC (pc : PC) (d : SessionDescription) : Except Unit PC :=
  match d.sdpType with
  | .rollback =>
    match pc.signalingState with
    | .haveLocalOffer =>
      .ok { pc with signalingState := .stable, localDescription := none }
    | .haveRemoteOffer =>
      .ok { pc with signalingState := .stable, remoteDescription := none }
    | _ => .error ()
  | .offer =>
    match pc.signalingState with
    | .stable =>
      .ok { pc with signalingState := .haveRemoteOffer, remoteDescription := some d }
    | .haveRemoteOffer =>
      .ok { pc with signalingState := .haveRemoteOffer, remoteDescription := some d }
    | _ => .error ()
  | .answer =>
    match pc.signalingState with
    | .haveLocalOffer =>
      .ok { pc with signalingState := .stable, remoteDescription := some d }
    | _ => .error ()

/-- `pc.createOffer({ iceRestart })` — pure, rejects on a closed connection. -/
def createOfferPC (pc : PC) (iceRestart : Bool) : Except Unit SessionDescription :=
  if pc.signalingState = .closed then .error ()
  else .ok { sdpType := .offer, iceRestart := iceRestart }

/-- `pc.createAnswer()` — requires a pending remote offer. -/
def createAnswerPC (pc : PC) : Except Unit SessionDescription :=
  match pc.signalingState with
  | .haveRemoteOffer => .ok { sdpType := .answer, iceRestart := false }
  | _ => .error ()

/-- `pc.addIceCandidate(c)`. -/
def addIceCandidatePC (pc : PC) (c : IceCandidate) : Except Unit PC :=
  if pc.signalingState = .closed then .error ()
  else if pc.remoteDescription = none then .error ()
  else if c.valid then
    .ok { pc with appliedCandidates := pc.appliedCandidates ++ [c] }
  else .error ()

/-- `pc.addTrack(t, stream)` — appends a sender; throws on a closed
connection. -/
def addTrackPC (pc : PC) (t : Track) : Except Unit PC :=
  if pc.signalingState = .closed then .error ()
  else .ok { pc with senders := pc.senders ++ [t] }

/-- `pc.close()`. -/
def closePC (pc : PC) : PC :=
  { pc with signalingState := .closed, connectionState := .closed }

/-- Sequentially `addTrack` each track of a list (the `forEach` in
`addLocalTracksToConnection`); the first thrown exception propagates. -/
def addTracksList (pc : PC) : List Track → Except Unit PC
  | [] => .ok pc
  | t :: ts =>
    match addTrackPC pc t with
    | .error e => .error e
    | .ok pc' => addTracksList pc' ts

/-! ### Engine state -/

/-- The state held by the `useWebRTC` hook's refs.  `conns` stores every
`RTCPeerConnection` ever constructed (so that a closed-but-replaced
connection stays observable); `registry` is `peerConnections.current`,
mapping a peer id to an index into `conns`. -/
structure Engine where
  isStreamReady : Bool
  localStream : Option (List Track)
  localSocketId : Option String
  conns : List PC
  registry : List (String × Nat)
  makingOffer : List (String × Bool)
  pendingIce : List (String × List IceCandidate)
  pendingSignals : List (String × SignalData)
  timers : List String
deriving DecidableEq, Repr

/-- Replace connection `i` in the store (a mutation of the JS object). -/
def setConn (e : Engine) (i : Nat) (pc : PC) : Engine :=
  { e with conns := e.conns.set i pc }

/-- `addLocalTracksToConnection(pc)` (useWebRTC.ts:107-120): returns the
connection unchanged when there is no local stream; otherwise computes the
already-present track ids from `getSenders()` once, then adds every stream
track whose id is not among them. -/
def addLocalTracksToConnection (stream : Option (List Track)) (pc : PC) :
    Except Unit PC :=
  match stream with
  | none => .ok pc
  | some ts =>
    let existing := pc.senders.map (·.tid)
    addTracksList pc (ts.filter (fun t => ¬ existing.contains t.tid))

/-- The fresh `RTCPeerConnection` built by `createPeerConnection`
(useWebRTC.ts:185-253): starts `stable`/`new`; local tracks are attached at
construction when the local stream is ready. -/
def newPC (e : Engine) : PC :=
  { signalingState := .stable
    connectionState := .new
    localDescription := none
    remoteDescription := none
    senders :=
      match e.localStream, e.isStreamReady with
      | some ts, true => ts
      | _, _ => []
    appliedCandidates := [] }

/-- The unconditional tail of `createPeerConnection` (useWebRTC.ts:182-256):
reset this peer's pending-ICE queue, construct the connection, install it in
the registry.  Returns the index of the new connection. -/
def installNewPC (e : Engine) (u : String) : Engine × Nat :=
  let e1 := { e with pendingIce := setA u [] e.pendingIce }
  let i := e1.conns.length
  ({ e1 with conns := e1.conns ++ [newPC e1], registry := setA u i e1.registry }, i)

/-- `createPeerConnection(userId, forceNew)` (useWebRTC.ts:169-257).  With
`forceNew = false` an existing connection is reused unless its
`connectionState` is `failed`/`closed`, in which case it is closed and then
replaced; with `forceNew = true` the reuse block is skipped entirely (the
source does not close the old connection on that path) and a replacement is
installed. -/
def createPeerConnection (e : Engine) (u : String) (forceNew : Bool) :
    Engine × Nat :=
  match lookupA u e.registry with
  | some i =>
    if forceNew then installNewPC e u
    else
      match e.conns[i]? with
      | some pc =>
        if pc.connectionState ≠ .failed ∧ pc.connectionState ≠ .closed then
          (e, i)
        else
          installNewPC (setConn e i (closePC pc)) u
      | none => installNewPC e u
  | none => installNewPC e u

/-- The `peerConnections.current[id] || createPeerConnection(id)` pattern
(useWebRTC.ts:285 and 405): plain registry access first, creation only when
absent. -/
def getOrCreatePC (e : Engine) (u : String) : Engine × Nat :=
  match lookupA u e.registry with
  | some i => (e, i)
  | none => createPeerConnection e u false

/-- Drain loop body of `processPendingIceCandidates`: each queued candidate
is applied with its own try/catch, so a rejected candidate is skipped and
the loop continues. -/
def applyCandidates (pc : PC) (cs : List IceCandidate) : PC :=
  cs.foldl
    (fun p c =>
      match addIceCandidatePC p c with
      | .ok q => q
      | .error _ => p)
    pc

/-- `processPendingIceCandidates(userId)` (useWebRTC.ts:132-150): no-op when
the peer has no connection or the queue is missing/empty; otherwise apply
every queued candidate in order (swallowing rejections) and clear the
queue. -/
def processPendingIceCandidates (e : Engine) (u : String) : Engine :=
  match lookupA u e.registry with
  | none => e
  | some i =>
    match e.conns[i]? with
    | none => e
    | some pc =>
      if ((lookupA u e.pendingIce).getD []).isEmpty then e
      else
        { setConn e i (applyCandidates pc ((lookupA u e.pendingIce).getD [])) with
            pendingIce := setA u [] e.pendingIce }

/-! ### The signal handler (`handleSignal`, useWebRTC.ts:397-490) -/

/-- Politeness (useWebRTC.ts:413):
`localSocketId.current ? localSocketId.current < from : true`. -/
def isPolite (localId : Option String) (remote : String) : Bool :=
  match localId with
  | some l => decide (l < remote)
  | none => true

/-- `data.sdp?.type === 'offer'` (the queueing guard, useWebRTC.ts:399). -/
def isOfferSignal : SignalData → Bool
  | .sdp d => d.sdpType = .offer
  | .candidate _ => false

/-- The offer branch (useWebRTC.ts:410-451).  Gate: ignore on glare when
impolite; otherwise a `try` block performs rollback (when a polite
collision), track attachment, `setRemoteDescription`, pending-ICE drain,
`createAnswer`, `setLocalDescription`, and emits the answer; a thrown step
aborts the rest but keeps the mutations already made. -/
def handleOffer (e : Engine) (i : Nat) (sender : String)
    (d : SessionDescription) : Engine × List OutMsg :=
  match e.conns[i]? with
  | none => (e, [])
  | some pc =>
    if !(isPolite e.localSocketId sender) &&
        (((lookupA sender e.makingOffer).getD false) ||
          !(pc.signalingState = SignalingState.stable : Bool)) then
      (e, [])
    else
      match
        (if (((lookupA sender e.makingOffer).getD false) ||
              !(pc.signalingState = SignalingState.stable : Bool)) &&
            isPolite e.localSocketId sender then
          setLocalDescriptionPC pc { sdpType := .rollback, iceRestart := false }
        else .ok pc) with
      | .error _ => (e, [])
      | .ok pc1 =>
        match addLocalTracksToConnection e.localStream pc1 with
        | .error _ => (setConn e i pc1, [])
        | .ok pc2 =>
          match setRemoteDescriptionPC pc2 d with
          | .error _ => (setConn e i pc2, [])
          | .ok pc3 =>
            match (processPendingIceCandidates (setConn e i pc3) sender).conns[i]? with
            | none => (processPendingIceCandidates (setConn e i pc3) sender, [])
            | some pc4 =>
              match createAnswerPC pc4 with
              | .error _ => (processPendingIceCandidates (setConn e i pc3) sender, [])
              | .ok ans =>
                match setLocalDescriptionPC pc4 ans with
                | .error _ => (processPendingIceCandidates (setConn e i pc3) sender, [])
                | .ok pc5 =>
                  (setConn (processPendingIceCandidates (setConn e i pc3) sender) i pc5,
                    [{ dest := sender, data := .sdp (pc5.localDescription.getD ans) }])

/-- The answer branch (useWebRTC.ts:453-469): apply the answer only in
`have-local-offer`, then drain pending ICE; otherwise (or on error) drop it
silently. -/
def handleAnswer (e : Engine) (i : Nat) (sender : String)
    (d : SessionDescription) : Engine × List OutMsg :=
  match e.conns[i]? with
  | none => (e, [])
  | some pc =>
    if pc.signalingState = .haveLocalOffer then
      match setRemoteDescriptionPC pc d with
      | .error _ => (e, [])
      | .ok pc' => (processPendingIceCandidates (setConn e i pc') sender, [])
    else (e, [])

/-- The candidate branch (useWebRTC.ts:471-489): queue when no remote
description is set yet, otherwise apply, swallowing rejections. -/
def handleCandidate (e : Engine) (i : Nat) (sender : String)
    (c : IceCandidate) : Engine × List OutMsg :=
  match e.conns[i]? with
  | none => (e, [])
  | some pc =>
    if pc.remoteDescription = none then
      ({ e with
          pendingIce :=
            setA sender ((lookupA sender e.pendingIce).getD [] ++ [c])
              e.pendingIce },
        [])
    else
      match addIceCandidatePC pc c with
      | .error _ => (e, [])
      | .ok pc' => (setConn e i pc', [])

/-- `handleSignal(from, data)` (useWebRTC.ts:397-490). -/
def handleSignal (e : Engine) (sender : String) (d : SignalData) :
    Engine × List OutMsg :=
  if !e.isStreamReady && isOfferSignal d then
    ({ e with pendingSignals := e.pendingSignals ++ [(sender, d)] }, [])
  else
    let p := getOrCreatePC e sender
    match d with
    | .sdp desc =>
      match desc.sdpType with
      | .offer => handleOffer p.1 p.2 sender desc
      | .answer => handleAnswer p.1 p.2 sender desc
      | .rollback => (p.1, [])
    | .candidate c => handleCandidate p.1 p.2 sender c

/-- The pending-signal drain in the main effect (useWebRTC.ts:627-635):
snapshot the queue, clear it, then replay each queued signal through
`handleSignal` in arrival order. -/
def drainPendingSignals (e : Engine) : Engine × List OutMsg :=
  if e.pendingSignals.isEmpty then (e, [])
  else
    e.pendingSignals.foldl
      (fun acc s =>
        let r := handleSignal acc.1 s.1 s.2
        (r.1, acc.2 ++ r.2))
      ({ e with pendingSignals := [] }, [])

/-! ### `createOfferTo` (useWebRTC.ts:274-316) -/

/-- The readiness test of `createOfferTo`:
`isStreamReady.current && localStream.current`. -/
def streamReadyFor (e : Engine) : Bool :=
  e.isStreamReady && e.localStream.isSome

/-- The `finally` clause of `createOfferTo`:
`makingOffer.current[userId] = false`, run regardless of outcome. -/
def offerFinally (u : String) (r : Engine × List OutMsg) :
    Engine × List OutMsg :=
  ({ r.1 with makingOffer := setA u false r.1.makingOffer }, r.2)

/-- The `try` block of `createOfferTo` (useWebRTC.ts:296-312): attach local
tracks, create an offer, set it as local description, emit it; a thrown
step aborts the rest, keeping earlier mutations. -/
def offerTryBody (e : Engine) (i : Nat) (u : String) : Engine × List OutMsg :=
  match e.conns[i]? with
  | none => (e, [])
  | some pc =>
    match addLocalTracksToConnection e.localStream pc with
    | .error _ => (e, [])
    | .ok pc1 =>
      match createOfferPC pc1 false with
      | .error _ => (setConn e i pc1, [])
      | .ok offer =>
        match setLocalDescriptionPC pc1 offer with
        | .error _ => (setConn e i pc1, [])
        | .ok pc2 =>
          (setConn e i pc2,
            [{ dest := u, data := .sdp (pc2.localDescription.getD offer) }])

/-- `createOfferTo(userId)` (useWebRTC.ts:274-316).  `e0` is the state at
entry and `eAfter` the state observed after the bounded 200 ms wait taken
when the local stream is not yet ready; if it is still not ready the call
is a no-op.  Otherwise: resolve-or-create the connection, skip unless
`signalingState` is `stable` or `closed`, mark `makingOffer`, run the try
body, and clear `makingOffer` in the `finally`. -/
def createOfferTo (e0 eAfter : Engine) (u : String) : Engine × List OutMsg :=
  let e := if streamReadyFor e0 then e0 else eAfter
  if !(streamReadyFor e) then (e, [])
  else
    let p := getOrCreatePC e u
    match p.1.conns[p.2]? with
    | none => (p.1, [])
    | some pc =>
      if !(pc.signalingState = SignalingState.stable : Bool) &&
          !(pc.signalingState = SignalingState.closed : Bool) then (p.1, [])
      else
        offerFinally u
          (offerTryBody
            { p.1 with makingOffer := setA u true p.1.makingOffer } p.2 u)

/-! ### Connection-health handling (useWebRTC.ts:218-245) -/

/-- An `onconnectionstatechange` event for peer `u`: the browser moves the
connection to `st` and the handler runs; on a transition to `failed` a
recreation timer for `u` is scheduled (`setTimeout(..., 2000)`). -/
def onConnectionStateChange (e : Engine) (u : String) (st : ConnectionState) :
    Engine :=
  match lookupA u e.registry with
  | none => e
  | some i =>
    match e.conns[i]? with
    | none => e
    | some pc =>
      let e1 := setConn e i { pc with connectionState := st }
      if st = .failed then { e1 with timers := e1.timers ++ [u] } else e1

/-- Body of the recreation timer once its guard has passed
(useWebRTC.ts:228-241): force-recreate the connection, reattach tracks,
create an offer with `iceRestart: true`, set it locally and resend it;
errors in the `try` are logged and swallowed. -/
def recreateBody (e : Engine) (u : String) : Engine × List OutMsg :=
  match (createPeerConnection e u true).1.conns[(createPeerConnection e u true).2]? with
  | none => ((createPeerConnection e u true).1, [])
  | some pc =>
    match addLocalTracksToConnection (createPeerConnection e u true).1.localStream pc with
    | .error _ => ((createPeerConnection e u true).1, [])
    | .ok pc1 =>
      match createOfferPC pc1 true with
      | .error _ => (setConn (createPeerConnection e u true).1 (createPeerConnection e u true).2 pc1, [])
      | .ok offer =>
        match setLocalDescriptionPC pc1 offer with
        | .error _ => (setConn (createPeerConnection e u true).1 (createPeerConnection e u true).2 pc1, [])
        | .ok pc2 =>
          (setConn (createPeerConnection e u true).1 (createPeerConnection e u true).2 pc2,
            [{ dest := u, data := .sdp (pc2.localDescription.getD offer) }])

/-- The action a scheduled recreation timer performs when it fires
(useWebRTC.ts:225-243): re-check that the peer's *current* registered
connection is still `failed`, and only then recreate. -/
def timerAction (e : Engine) (u : String) : Engine × List OutMsg :=
  match lookupA u e.registry with
  | none => (e, [])
  | some i =>
    match e.conns[i]? with
    | none => (e, [])
    | some pc =>
      if pc.connectionState = .failed then recreateBody e u else (e, [])

/-- Fire every scheduled recreation timer, in scheduling order. -/
def fireAllTimers (e : Engine) : Engine × List OutMsg :=
  e.timers.foldl
    (fun acc u =>
      let r := timerAction acc.1 u
      (r.1, acc.2 ++ r.2))
    ({ e with timers := [] }, [])

/-! ### Local media acquisition (useWebRTC.ts:528-560) -/

/-- What the user's devices can deliver. -/
inductive MediaEnv
  | avOk
  | audioOnly
  | noDevice
deriving DecidableEq, Repr

/-- The canonical local audio track produced by `getUserMedia`. -/
def mkAudioTrack : Track :=
  { tid := "local-audio", kind := .audio, enabled := true }

/-- The canonical local video track produced by `getUserMedia`. -/
def mkVideoTrack : Track :=
  { tid := "local-video", kind := .video, enabled := true }

/-- `navigator.mediaDevices.getUserMedia({ video, audio })` under a given
device environment. -/
def getUserMedia (env : MediaEnv) (video audio : Bool) :
    Except Unit (List Track) :=
  match env with
  | .avOk =>
    .ok ((if audio then [mkAudioTrack] else []) ++
      (if video then [mkVideoTrack] else []))
  | .audioOnly =>
    if video then .error ()
    else .ok (if audio then [mkAudioTrack] else [])
  | .noDevice => .error ()

/-- The acquisition cascade (useWebRTC.ts:533-548): try audio+video, fall
back to audio-only, fall back to an empty `MediaStream`. -/
def acquireLocalStream (env : MediaEnv) : List Track :=
  match getUserMedia env true true with
  | .ok ts => ts
  | .error _ =>
    match getUserMedia env false true with
    | .ok ts => ts
    | .error _ => []

/-- Completion of acquisition (useWebRTC.ts:553-554): store the stream and
mark it ready — in every environment, including the empty fallback. -/
def onMediaAcquired (e : Engine) (env : MediaEnv) : Engine :=
  { e with localStream := some (acquireLocalStream env), isStreamReady := true }

/-! ### Media control surface (`useMediaControls.ts`) -/

/-- The state held by the `useMediaControls` hook. -/
structure MediaControls where
  isMuted : Bool
  isCameraOff : Bool
  hasMic : Bool
  hasCamera : Bool
deriving DecidableEq, Repr

/-- Controls state paired with the engine owning the shared local stream. -/
structure ControlsState where
  controls : MediaControls
  engine : Engine
deriving DecidableEq, Repr

/-- Flip `enabled` on a track when it has the given kind (the
`t.enabled = !t.enabled` mutation inside the toggle loops). -/
def flipKind (k : TrackKind) (t : Track) : Track :=
  if t.kind = k then { t with enabled := !t.enabled } else t

/-- `toggleMute()` (useMediaControls.ts:35-45): no-op without a stream; with
a stream but no audio track, set `hasMic = false`; otherwise flip every
audio track's `enabled` and flip `isMuted`. -/
def appToggleMute (s : ControlsState) : ControlsState × List OutMsg :=
  match s.engine.localStream with
  | none => (s, [])
  | some ts =>
    let audio := ts.filter (fun t => t.kind = TrackKind.audio)
    if audio.isEmpty then
      ({ s with controls := { s.controls with hasMic := false } }, [])
    else
      ({ s with
          controls := { s.controls with isMuted := !s.controls.isMuted }
          engine :=
            { s.engine with
                localStream := some (ts.map (flipKind .audio)) } },
        [])

/-- `toggleCamera()` (useMediaControls.ts:47-58): same shape for video
tracks, `hasCamera` and `isCameraOff`. -/
def appToggleCamera (s : ControlsState) : ControlsState × List OutMsg :=
  match s.engine.localStream with
  | none => (s, [])
  | some ts =>
    let video := ts.filter (fun t => t.kind = TrackKind.video)
    if video.isEmpty then
      ({ s with controls := { s.controls with hasCamera := false } }, [])
    else
      ({ s with
          controls := { s.controls with isCameraOff := !s.controls.isCameraOff }
          engine :=
            { s.engine with
                localStream := some (ts.map (flipKind .video)) } },
        [])

/-! ### General helper lemmas -/

theorem get_some_lt {α : Type} {l : List α} {i : Nat} {a : α}
    (h : l[i]? = some a) : i < l.length :=
  (List.getElem?_eq_some.mp h).1

theorem list_set_self {α : Type} {l : List α} {i : Nat} {a : α}
    (h : l[i]? = some a) : l.set i a = l := by
  induction l generalizing i with
  | nil => simp at h
  | cons x t ih =>
    cases i with
    | zero => simp at h; simp [h]
    | succ n =>
      simp only [List.getElem?_cons_succ] at h
      simp [List.set, ih h]

/-- `addTracksList` on a non-closed connection never throws and appends the
given tracks to the senders, in order. -/
theorem addTracksList_ok (l : List Track) (pc : PC)
    (h : pc.signalingState ≠ .closed) :
    addTracksList pc l = .ok { pc with senders := pc.senders ++ l } := by
  induction l generalizing pc with
  | nil => simp [addTracksList]
  | cons t ts ih =>
    have h1 : addTrackPC pc t = .ok { pc with senders := pc.senders ++ [t] } := by
      simp [addTrackPC, h]
    have h2 := ih { pc with senders := pc.senders ++ [t] } h
    simp [addTracksList, h1, h2]

/-- `addLocalTracksToConnection` on a non-closed connection: adds exactly the
stream tracks whose id is not already among the senders. -/
theorem addLocalTracksToConnection_ok (ts : List Track) (pc : PC)
    (h : pc.signalingState ≠ .closed) :
    addLocalTracksToConnection (some ts) pc =
      .ok { pc with
              senders := pc.senders ++
                ts.filter (fun t => ¬ (pc.senders.map (·.tid)).contains t.tid) } := by
  simp only [addLocalTracksToConnection]
  exact addTracksList_ok _ pc h

/-- The pending-ICE drain loop applies exactly the transport-accepted
candidates, in arrival order, when a remote description is present. -/
theorem applyCandidates_spec (ps : List IceCandidate) (pc : PC)
    (hnc : pc.signalingState ≠ .closed) (hrd : pc.remoteDescription ≠ none) :
    applyCandidates pc ps =
      { pc with
          appliedCandidates :=
            pc.appliedCandidates ++ ps.filter (fun c => c.valid) } := by
  induction ps generalizing pc with
  | nil => simp [applyCandidates]
  | cons c t ih =>
    by_cases hv : c.valid
    · have h1 : addIceCandidatePC pc c =
          .ok { pc with appliedCandidates := pc.appliedCandidates ++ [c] } := by
        simp [addIceCandidatePC, hnc, hrd, hv]
      have h2 := ih { pc with appliedCandidates := pc.appliedCandidates ++ [c] }
        hnc hrd
      simp [applyCandidates, List.foldl_cons, h1] at h2 ⊢
      simp [h2, hv]
    · have h1 : addIceCandidatePC pc c = .error () := by
        simp [addIceCandidatePC, hnc, hrd, hv]
      have h2 := ih pc hnc hrd
      simp [applyCandidates, List.foldl_cons, h1] at h2 ⊢
      simp [h2, hv]

/-! ### Concrete fixtures used by witnesses and counterexamples -/

/-- Concrete peer id. -/
def uA : String := "a"

/-- Concrete peer id. -/
def uB : String := "b"

/-- A plain incoming offer description. -/
def offerIn : SessionDescription := { sdpType := .offer, iceRestart := false }

theorem uA_lt_uB : uA < uB := by
  show ("a" : String) < "b"
  rw [String.lt_iff_toList_lt]
  decide

/-- With local id `uA` and remote id `uB`, the local side is polite. -/
theorem isPolite_uA_uB : isPolite (some uA) uB = true := by
  have h : isPolite (some uA) uB = decide (uA < uB) := rfl
  rw [h, decide_eq_true_eq]
  exact uA_lt_uB

/-! ## Claim theorems -/

/-- Claim C1: for every pair of distinct peer identifiers, the local side is
polite iff its own identifier is strictly less than the remote identifier
under the total (lexicographic) order on identifiers, and exactly one of the
two sides of any pair is polite. -/
theorem C1_politeness (l r : String) (h : l ≠ r) :
    (isPolite (some l) r = true ↔ l < r) ∧
    (isPolite (some l) r = true ↔ ¬ isPolite (some r) l = true) := by
  have h1 : isPolite (some l) r = decide (l < r) := rfl
  have h2 : isPolite (some r) l = decide (r < l) := rfl
  rw [h1, h2]
  simp only [decide_eq_true_eq]
  refine ⟨trivial, ?_, ?_⟩
  · exact fun hlt hrl => lt_asymm hlt hrl
  · intro hn
    rcases lt_trichotomy l r with h3 | h3 | h3
    · exact h3
    · exact absurd h3 h
    · exact absurd h3 hn

/-- Witness for C1 at the concrete identifier pair used in the spec's
scenario. -/
theorem C1_politeness_witness :
    (isPolite (some uA) uB = true ↔ uA < uB) ∧
    (isPolite (some uA) uB = true ↔ ¬ isPolite (some uB) uA = true) :=
  C1_politeness uA uB (by decide)

/-- Claim C8: local media acquisition attempts audio+video; on failure it
falls back to audio-only; on total failure it produces a valid but trackless
stream rather than failing; and in every one of these outcomes the ready
flag becomes true once acquisition completes, including the empty-fallback
case with zero tracks. -/
theorem C8_media_acquisition (e : Engine) (env : MediaEnv) :
    (onMediaAcquired e env).isStreamReady = true ∧
    (onMediaAcquired e env).localStream = some (acquireLocalStream env) ∧
    acquireLocalStream MediaEnv.avOk = [mkAudioTrack, mkVideoTrack] ∧
    acquireLocalStream MediaEnv.audioOnly = [mkAudioTrack] ∧
    acquireLocalStream MediaEnv.noDevice = [] :=
  ⟨rfl, rfl, rfl, rfl, rfl⟩

/-! ### Media-control lemmas -/

theorem flipKind_kind (k : TrackKind) (t : Track) : (flipKind k t).kind = t.kind := by
  unfold flipKind
  split <;> rfl

theorem flipKind_flipKind (k : TrackKind) (t : Track) :
    flipKind k (flipKind k t) = t := by
  obtain ⟨tid, kd, en⟩ := t
  unfold flipKind
  by_cases h : kd = k
  · simp [h]
  · simp [h]

theorem filter_kind_map_flip (ts : List Track) (k k' : TrackKind) :
    (ts.map (flipKind k)).filter (fun t => t.kind = k') =
      (ts.filter (fun t => t.kind = k')).map (flipKind k) := by
  rw [List.filter_map]
  congr 1
  apply List.filter_congr
  intro t _
  simp [Function.comp, flipKind_kind]

theorem flip_comp_flip (k : TrackKind) : flipKind k ∘ flipKind k = id := by
  funext t
  exact flipKind_flipKind k t

theorem map_flip_flip (ts : List Track) (k : TrackKind) :
    (ts.map (flipKind k)).map (flipKind k) = ts := by
  rw [List.map_map, flip_comp_flip, List.map_id]

/-- A fixture controls state over a stream with one audio and one video
track. -/
def csFix : ControlsState :=
  { controls :=
      { isMuted := false, isCameraOff := false, hasMic := true, hasCamera := true }
    engine :=
      { isStreamReady := true
        localStream := some [mkAudioTrack, mkVideoTrack]
        localSocketId := some uA
        conns := []
        registry := []
        makingOffer := []
        pendingIce := []
        pendingSignals := []
        timers := [] } }

/-- Claim C9: toggleMute and toggleCamera flip the `enabled` flag on all
local tracks of the relevant kind and do nothing else to the connection
layer — every peer session's `signalingState` is unchanged and no outbound
signaling message is produced; when no track of the relevant kind exists,
only the corresponding capability flag (`hasMic`/`hasCamera`) is cleared
and no track is modified. -/
theorem C9_toggle_frame (s : ControlsState) (ts : List Track)
    (hs : s.engine.localStream = some ts) :
    ((appToggleMute s).2 = [] ∧ (appToggleCamera s).2 = []) ∧
    ((appToggleMute s).1.engine.conns = s.engine.conns ∧
      (appToggleCamera s).1.engine.conns = s.engine.conns ∧
      (appToggleMute s).1.engine.makingOffer = s.engine.makingOffer ∧
      (appToggleCamera s).1.engine.makingOffer = s.engine.makingOffer) ∧
    ((ts.filter (fun t => t.kind = TrackKind.audio)).isEmpty = true →
      (appToggleMute s).1 =
        { s with controls := { s.controls with hasMic := false } }) ∧
    ((ts.filter (fun t => t.kind = TrackKind.audio)).isEmpty = false →
      (appToggleMute s).1.engine.localStream =
          some (ts.map (flipKind .audio)) ∧
        (appToggleMute s).1.controls.isMuted = !s.controls.isMuted ∧
        (appToggleMute s).1.controls.hasMic = s.controls.hasMic ∧
        (appToggleMute s).1.controls.isCameraOff = s.controls.isCameraOff) ∧
    ((ts.filter (fun t => t.kind = TrackKind.video)).isEmpty = true →
      (appToggleCamera s).1 =
        { s with controls := { s.controls with hasCamera := false } }) ∧
    ((ts.filter (fun t => t.kind = TrackKind.video)).isEmpty = false →
      (appToggleCamera s).1.engine.localStream =
          some (ts.map (flipKind .video)) ∧
        (appToggleCamera s).1.controls.isCameraOff = !s.controls.isCameraOff ∧
        (appToggleCamera s).1.controls.hasCamera = s.controls.hasCamera ∧
        (appToggleCamera s).1.controls.isMuted = s.controls.isMuted) := by
  refine ⟨⟨?_, ?_⟩, ⟨?_, ?_, ?_, ?_⟩, ?_, ?_, ?_, ?_⟩ <;>
    simp only [appToggleMute, appToggleCamera, hs] <;>
    first
      | (intro h; simp [h])
      | (split <;> simp_all)

/-- Witness for C9 at a concrete state with one audio and one video
track. -/
theorem C9_toggle_frame_witness :
    (appToggleMute csFix).2 = [] ∧
    (appToggleMute csFix).1.controls.isMuted = true ∧
    (appToggleCamera csFix).1.controls.isCameraOff = true := by
  have h := C9_toggle_frame csFix [mkAudioTrack, mkVideoTrack] rfl
  refine ⟨h.1.1, ?_, ?_⟩
  · have h2 := (h.2.2.2.1 (by decide)).2.1
    rw [h2]
    rfl
  · have h2 := (h.2.2.2.2.2 (by decide)).2.1
    rw [h2]
    rfl

/-- Claim C10: for every local stream with at least one track of the
relevant kind, a double toggleMute restores every audio track's `enabled`
flag and the reported `isMuted` state, and a double toggleCamera restores
every video track's `enabled` flag and the reported `isCameraOff` state
(double toggle is the identity). -/
theorem C10_double_toggle (s : ControlsState) (ts : List Track)
    (hs : s.engine.localStream = some ts) :
    ((ts.filter (fun t => t.kind = TrackKind.audio)).isEmpty = false →
      (appToggleMute (appToggleMute s).1).1.engine.localStream = some ts ∧
        (appToggleMute (appToggleMute s).1).1.controls.isMuted =
          s.controls.isMuted) ∧
    ((ts.filter (fun t => t.kind = TrackKind.video)).isEmpty = false →
      (appToggleCamera (appToggleCamera s).1).1.engine.localStream = some ts ∧
        (appToggleCamera (appToggleCamera s).1).1.controls.isCameraOff =
          s.controls.isCameraOff) := by
  constructor
  · intro h
    have hfilter :
        ((ts.map (flipKind .audio)).filter
            (fun t => t.kind = TrackKind.audio)).isEmpty = false := by
      rw [filter_kind_map_flip]
      rcases hmem : ts.filter (fun t => t.kind = TrackKind.audio) with _ | ⟨x, xs⟩
      · simp [hmem] at h
      · rw [hmem]
        rfl
    simp [appToggleMute, hs, h, hfilter, flip_comp_flip]
  · intro h
    have hfilter :
        ((ts.map (flipKind .video)).filter
            (fun t => t.kind = TrackKind.video)).isEmpty = false := by
      rw [filter_kind_map_flip]
      rcases hmem : ts.filter (fun t => t.kind = TrackKind.video) with _ | ⟨x, xs⟩
      · simp [hmem] at h
      · rw [hmem]
        rfl
    simp [appToggleCamera, hs, h, hfilter, flip_comp_flip]

/-- Witness for C10 at the concrete fixture state. -/
theorem C10_double_toggle_witness :
    (appToggleMute (appToggleMute csFix).1).1.engine.localStream =
        some [mkAudioTrack, mkVideoTrack] ∧
    (appToggleMute (appToggleMute csFix).1).1.controls.isMuted =
      csFix.controls.isMuted := by
  have h := C10_double_toggle csFix [mkAudioTrack, mkVideoTrack] rfl
  exact h.1 (by decide)

/-! ### Frame lemmas: no engine operation invoked from `handleSignal` touches
the stream-ready flag or the pending-signal queue. -/

theorem installNewPC_ready (e : Engine) (u : String) :
    (installNewPC e u).1.isStreamReady = e.isStreamReady := by
  simp [installNewPC]

theorem installNewPC_pendingSignals (e : Engine) (u : String) :
    (installNewPC e u).1.pendingSignals = e.pendingSignals := by
  simp [installNewPC]

theorem createPeerConnection_ready (e : Engine) (u : String) (f : Bool) :
    (createPeerConnection e u f).1.isStreamReady = e.isStreamReady := by
  unfold createPeerConnection
  (repeat' split) <;>
    simp [installNewPC_ready, installNewPC, setConn]

theorem createPeerConnection_pendingSignals (e : Engine) (u : String) (f : Bool) :
    (createPeerConnection e u f).1.pendingSignals = e.pendingSignals := by
  unfold createPeerConnection
  (repeat' split) <;>
    simp [installNewPC_pendingSignals, installNewPC, setConn]

theorem getOrCreatePC_ready (e : Engine) (u : String) :
    (getOrCreatePC e u).1.isStreamReady = e.isStreamReady := by
  unfold getOrCreatePC
  (repeat' split) <;> simp [createPeerConnection_ready]

theorem getOrCreatePC_pendingSignals (e : Engine) (u : String) :
    (getOrCreatePC e u).1.pendingSignals = e.pendingSignals := by
  unfold getOrCreatePC
  (repeat' split) <;> simp [createPeerConnection_pendingSignals]

theorem ppic_ready (e : Engine) (u : String) :
    (processPendingIceCandidates e u).isStreamReady = e.isStreamReady := by
  unfold processPendingIceCandidates
  (repeat' split) <;> simp [setConn]

theorem ppic_pendingSignals (e : Engine) (u : String) :
    (processPendingIceCandidates e u).pendingSignals = e.pendingSignals := by
  unfold processPendingIceCandidates
  (repeat' split) <;> simp [setConn]

theorem handleOffer_ready (e : Engine) (i : Nat) (u : String)
    (d : SessionDescription) :
    (handleOffer e i u d).1.isStreamReady = e.isStreamReady := by
  unfold handleOffer
  (repeat' split) <;> simp [setConn, ppic_ready]

theorem handleOffer_pendingSignals (e : Engine) (i : Nat) (u : String)
    (d : SessionDescription) :
    (handleOffer e i u d).1.pendingSignals = e.pendingSignals := by
  unfold handleOffer
  (repeat' split) <;> simp [setConn, ppic_pendingSignals]

theorem handleAnswer_ready (e : Engine) (i : Nat) (u : String)
    (d : SessionDescription) :
    (handleAnswer e i u d).1.isStreamReady = e.isStreamReady := by
  unfold handleAnswer
  (repeat' split) <;> simp [setConn, ppic_ready]

theorem handleAnswer_pendingSignals (e : Engine) (i : Nat) (u : String)
    (d : SessionDescription) :
    (handleAnswer e i u d).1.pendingSignals = e.pendingSignals := by
  unfold handleAnswer
  (repeat' split) <;> simp [setConn, ppic_pendingSignals]

theorem handleCandidate_ready (e : Engine) (i : Nat) (u : String)
    (c : IceCandidate) :
    (handleCandidate e i u c).1.isStreamReady = e.isStreamReady := by
  unfold handleCandidate
  (repeat' split) <;> simp [setConn]

theorem handleCandidate_pendingSignals (e : Engine) (i : Nat) (u : String)
    (c : IceCandidate) :
    (handleCandidate e i u c).1.pendingSignals = e.pendingSignals := by
  unfold handleCandidate
  (repeat' split) <;> simp [setConn]

/-- Once the local stream is ready, `handleSignal` never enqueues a pending
signal and never changes the ready flag. -/
theorem handleSignal_ready_frame (e : Engine) (u : String) (d : SignalData)
    (h : e.isStreamReady = true) :
    (handleSignal e u d).1.isStreamReady = true ∧
    (handleSignal e u d).1.pendingSignals = e.pendingSignals := by
  unfold handleSignal
  rw [h]
  simp only [Bool.not_true, Bool.false_and, Bool.false_eq_true, if_false]
  rcases d with d | c
  · rcases hd : d.sdpType with _ | _ | _ <;>
      simp only [hd] <;>
      constructor <;>
      simp [handleOffer_ready, handleOffer_pendingSignals,
        handleAnswer_ready, handleAnswer_pendingSignals,
        getOrCreatePC_ready, getOrCreatePC_pendingSignals, h]
  · constructor <;>
      simp [handleCandidate_ready, handleCandidate_pendingSignals,
        getOrCreatePC_ready, getOrCreatePC_pendingSignals, h]

/-- The drain loop's fold keeps the ready flag and never repopulates the
queue it started from. -/
theorem drain_fold_inv (l : List (String × SignalData))
    (e0 : Engine) (ms : List OutMsg) (h1 : e0.isStreamReady = true) :
    ((l.foldl
        (fun acc s =>
          let r := handleSignal acc.1 s.1 s.2
          (r.1, acc.2 ++ r.2)) (e0, ms)).1.isStreamReady = true) ∧
    ((l.foldl
        (fun acc s =>
          let r := handleSignal acc.1 s.1 s.2
          (r.1, acc.2 ++ r.2)) (e0, ms)).1.pendingSignals = e0.pendingSignals) := by
  induction l generalizing e0 ms with
  | nil => exact ⟨h1, rfl⟩
  | cons s t ih =>
    simp only [List.foldl_cons]
    have hf := handleSignal_ready_frame e0 s.1 s.2 h1
    have hih := ih (handleSignal e0 s.1 s.2).1 (ms ++ (handleSignal e0 s.1 s.2).2) hf.1
    exact ⟨hih.1, hih.2.trans hf.2⟩

/-- Claim C4: every offer that arrives while local media is not ready is
enqueued as a pending signal and not processed; the drain replays the
queued signals through `handleSignal` in original arrival order exactly
once (snapshotting and clearing the queue first), and when media is ready
the queue is empty afterwards, so no offer is dropped. -/
theorem C4_pending_offer_queue (e : Engine) (u : String) (d : SignalData) :
    (e.isStreamReady = false → isOfferSignal d = true →
      handleSignal e u d =
        ({ e with pendingSignals := e.pendingSignals ++ [(u, d)] }, [])) ∧
    (e.pendingSignals.isEmpty = false →
      drainPendingSignals e =
        e.pendingSignals.foldl
          (fun acc s =>
            let r := handleSignal acc.1 s.1 s.2
            (r.1, acc.2 ++ r.2))
          ({ e with pendingSignals := [] }, [])) ∧
    (e.isStreamReady = true →
      (drainPendingSignals e).1.pendingSignals = [] ∧
      (drainPendingSignals e).1.isStreamReady = true) := by
  refine ⟨?_, ?_, ?_⟩
  · intro h1 h2
    simp [handleSignal, h1, h2]
  · intro h
    simp [drainPendingSignals, h]
  · intro h
    by_cases hq : e.pendingSignals.isEmpty
    · have hnil : e.pendingSignals = [] := List.isEmpty_iff.mp hq
      simp [drainPendingSignals, hq, hnil, h]
    · simp only [drainPendingSignals, hq, Bool.false_eq_true, if_false, ite_false]
      have := drain_fold_inv e.pendingSignals { e with pendingSignals := [] } [] h
      exact ⟨this.2, this.1⟩

/-- Witness for C4 at a concrete not-ready state receiving an offer. -/
theorem C4_pending_offer_queue_witness :
    handleSignal
        { isStreamReady := false, localStream := none, localSocketId := none,
          conns := [], registry := [], makingOffer := [], pendingIce := [],
          pendingSignals := [], timers := [] } uB (.sdp offerIn) =
      ({ isStreamReady := false, localStream := none, localSocketId := none,
          conns := [], registry := [], makingOffer := [], pendingIce := [],
          pendingSignals := [(uB, .sdp offerIn)], timers := [] }, []) := by
  have h := C4_pending_offer_queue
    { isStreamReady := false, localStream := none, localSocketId := none,
      conns := [], registry := [], makingOffer := [], pendingIce := [],
      pendingSignals := [], timers := [] } uB (.sdp offerIn)
  exact h.1 rfl rfl

/-- Claim C3: an incoming ICE candidate is queued (and nothing else happens)
when the peer's session has no remote description yet, applied immediately
otherwise, with transport-rejected candidates logged and swallowed; the
pending-ICE drain applies queued candidates in original arrival order, each
exactly once, and clears the queue. -/
theorem C3_ice_candidate_handling (e : Engine) (u : String) (i : Nat) (pc : PC)
    (c : IceCandidate)
    (hreg : lookupA u e.registry = some i)
    (hpc : e.conns[i]? = some pc) :
    (pc.remoteDescription = none →
      handleSignal e u (.candidate c) =
        ({ e with
            pendingIce :=
              setA u ((lookupA u e.pendingIce).getD [] ++ [c]) e.pendingIce },
          [])) ∧
    (pc.remoteDescription ≠ none →
      (pc.signalingState ≠ .closed → c.valid = true →
        handleSignal e u (.candidate c) =
          (setConn e i
            { pc with appliedCandidates := pc.appliedCandidates ++ [c] }, [])) ∧
      (c.valid = false → handleSignal e u (.candidate c) = (e, [])) ∧
      (pc.signalingState = .closed → handleSignal e u (.candidate c) = (e, []))) ∧
    (∀ ps, lookupA u e.pendingIce = some ps → pc.remoteDescription ≠ none →
      pc.signalingState ≠ .closed →
      (processPendingIceCandidates e u).conns[i]? =
        some { pc with
                appliedCandidates :=
                  pc.appliedCandidates ++ ps.filter (fun cc => cc.valid) } ∧
      lookupA u (processPendingIceCandidates e u).pendingIce = some [] ∧
      (processPendingIceCandidates e u).registry = e.registry ∧
      (processPendingIceCandidates e u).pendingSignals = e.pendingSignals) := by
  refine ⟨?_, ?_, ?_⟩
  · intro h
    simp [handleSignal, isOfferSignal, getOrCreatePC, hreg, handleCandidate,
      hpc, h]
  · intro hrd
    refine ⟨?_, ?_, ?_⟩
    · intro hnc hv
      simp [handleSignal, isOfferSignal, getOrCreatePC, hreg, handleCandidate,
        hpc, hrd, addIceCandidatePC, hnc, hv]
    · intro hv
      by_cases hnc : pc.signalingState = SignalingState.closed
      · simp [handleSignal, isOfferSignal, getOrCreatePC, hreg, handleCandidate,
          hpc, hrd, addIceCandidatePC, hnc]
      · simp [handleSignal, isOfferSignal, getOrCreatePC, hreg, handleCandidate,
          hpc, hrd, addIceCandidatePC, hnc, hv]
    · intro hnc
      simp [handleSignal, isOfferSignal, getOrCreatePC, hreg, handleCandidate,
        hpc, hrd, addIceCandidatePC, hnc]
  · intro ps hps hrd hnc
    by_cases hE : ps.isEmpty
    · have hnil : ps = [] := List.isEmpty_iff.mp hE
      subst hnil
      simp [processPendingIceCandidates, hreg, hpc, hps]
    · have hlt : i < e.conns.length := get_some_lt hpc
      simp only [processPendingIceCandidates, hreg, hpc, hps, Option.getD_some,
        hE, Bool.false_eq_true, if_false, ite_false]
      refine ⟨?_, ?_, rfl, rfl⟩
      · rw [show (setConn e i (applyCandidates pc ps)).conns =
            e.conns.set i (applyCandidates pc ps) from rfl]
        rw [list_get_set_self _ _ _ hlt, applyCandidates_spec ps pc hnc hrd]
      · exact lookupA_setA_self u [] _

/-! ### The accepted-offer path of `handleOffer` -/

/-- Running the pending-ICE drain right after committing connection state
`q` at index `i`: the accepted queued candidates are appended in order, the
queue is cleared, and registry/length are untouched. -/
theorem ppic_after_set (e : Engine) (u : String) (i : Nat) (q : PC)
    (ps : List IceCandidate)
    (hlt : i < e.conns.length)
    (hreg : lookupA u e.registry = some i)
    (hps : lookupA u e.pendingIce = some ps)
    (hnc : q.signalingState ≠ .closed)
    (hrd : q.remoteDescription ≠ none) :
    (processPendingIceCandidates (setConn e i q) u).conns[i]? =
      some { q with
              appliedCandidates :=
                q.appliedCandidates ++ ps.filter (fun c => c.valid) } ∧
    (processPendingIceCandidates (setConn e i q) u).registry = e.registry ∧
    lookupA u (processPendingIceCandidates (setConn e i q) u).pendingIce =
      some [] ∧
    (processPendingIceCandidates (setConn e i q) u).conns.length =
      e.conns.length := by
  by_cases hE : ps.isEmpty
  · have hnil : ps = [] := List.isEmpty_iff.mp hE
    subst hnil
    simp [processPendingIceCandidates, setConn, hreg,
      list_get_set_self _ _ _ hlt, hps]
  · have happ := applyCandidates_spec ps q hnc hrd
    have hget1 : (e.conns.set i q)[i]? = some q := list_get_set_self _ _ _ hlt
    have hlt2 : i < (e.conns.set i q).length := by simpa using hlt
    have hget2 : ((e.conns.set i q).set i (applyCandidates q ps))[i]? =
        some (applyCandidates q ps) := list_get_set_self _ _ _ hlt2
    simp [processPendingIceCandidates, setConn, hreg, hget1, hps, hE, hget2,
      happ, lookupA_setA_self, list_get_set_self _ _ _ hlt]

/-- When the glare gate does not fire and the rollback step yields a stable
connection `pc1`, `handleOffer` performs the full accept sequence: attach
local tracks (deduplicated by track id), set the offer as remote
description, drain the pending ICE queue (applying the accepted candidates
in order and clearing the queue), create and set an answer, and emit it to
the sender. -/
theorem handleOffer_accept (e : Engine) (i : Nat) (u : String)
    (d : SessionDescription) (pc pc1 : PC) (ts : List Track)
    (ps : List IceCandidate)
    (hpc : e.conns[i]? = some pc)
    (hstream : e.localStream = some ts)
    (hreg : lookupA u e.registry = some i)
    (hps : lookupA u e.pendingIce = some ps)
    (hd : d.sdpType = .offer)
    (hgate : (!(isPolite e.localSocketId u) &&
        (((lookupA u e.makingOffer).getD false) ||
          !(pc.signalingState = SignalingState.stable : Bool))) = false)
    (hroll : (if (((lookupA u e.makingOffer).getD false) ||
          !(pc.signalingState = SignalingState.stable : Bool)) &&
          isPolite e.localSocketId u then
        setLocalDescriptionPC pc { sdpType := .rollback, iceRestart := false }
      else .ok pc) = .ok pc1)
    (hstable : pc1.signalingState = .stable) :
    (handleOffer e i u d).2 =
      [{ dest := u, data := .sdp { sdpType := .answer, iceRestart := false } }] ∧
    lookupA u (handleOffer e i u d).1.registry = some i ∧
    (handleOffer e i u d).1.conns[i]? = some
      { signalingState := .stable
        connectionState := pc1.connectionState
        localDescription := some { sdpType := .answer, iceRestart := false }
        remoteDescription := some d
        senders := pc1.senders ++
          ts.filter (fun t => ¬ (pc1.senders.map (·.tid)).contains t.tid)
        appliedCandidates :=
          pc1.appliedCandidates ++ ps.filter (fun c => c.valid) } ∧
    lookupA u (handleOffer e i u d).1.pendingIce = some [] := by
  have hlt : i < e.conns.length := get_some_lt hpc
  have hnc1 : pc1.signalingState ≠ SignalingState.closed := by
    rw [hstable]
    exact fun hcon => by cases hcon
  have h2 : addLocalTracksToConnection e.localStream pc1 = .ok
      { pc1 with
          senders := pc1.senders ++
            ts.filter (fun t => ¬ (pc1.senders.map (·.tid)).contains t.tid) } := by
    rw [hstream]
    exact addLocalTracksToConnection_ok ts pc1 hnc1
  obtain ⟨hf1, hf2, hf3, hf4⟩ := ppic_after_set e u i
    { signalingState := SignalingState.haveRemoteOffer
      connectionState := pc1.connectionState
      localDescription := pc1.localDescription
      remoteDescription := some d
      senders := pc1.senders ++
        ts.filter (fun t => ¬ (pc1.senders.map (·.tid)).contains t.tid)
      appliedCandidates := pc1.appliedCandidates }
    ps hlt hreg hps (fun hcon => by cases hcon) (by simp)
  have hlen : i < (processPendingIceCandidates
      (setConn e i
        { signalingState := SignalingState.haveRemoteOffer
          connectionState := pc1.connectionState
          localDescription := pc1.localDescription
          remoteDescription := some d
          senders := pc1.senders ++
            ts.filter (fun t => ¬ (pc1.senders.map (·.tid)).contains t.tid)
          appliedCandidates := pc1.appliedCandidates }) u).conns.length := by
    rw [hf4]
    exact hlt
  simp only [setConn] at hf1 hf2 hf3 hf4 hlen
  refine ⟨?_, ?_, ?_, ?_⟩
  all_goals
    simp only [handleOffer, hpc]
    rw [if_neg (by simp [hgate])]
    rw [hroll]
    simp only [h2, setRemoteDescriptionPC, hd, hstable, hf1, createAnswerPC,
      setLocalDescriptionPC, setConn, Option.getD_some,
      list_get_set_self _ _ _ hlen, hf2, hf3, hreg]

/-- C2 counterexample fixture: a session for peer `uB` whose `makingOffer`
flag is set while its `signalingState` is still `stable` — the engine state
during `createOfferTo`'s suspension points between setting the flag and
installing the local description.  The local id `uA < uB`, so the local
side is polite. -/
def pcCex2 : PC :=
  { signalingState := .stable, connectionState := .connected,
    localDescription := none, remoteDescription := none,
    senders := [], appliedCandidates := [] }

/-- Engine state for the C2 counterexample. -/
def eCex2 : Engine :=
  { isStreamReady := true, localStream := some [mkAudioTrack],
    localSocketId := some uA, conns := [pcCex2], registry := [(uB, 0)],
    makingOffer := [(uB, true)], pendingIce := [(uB, [])],
    pendingSignals := [], timers := [] }

/-- Claim C2 counterexample: in a collision (the session's `isMakingOffer`
flag is set) with the local side polite, the claim requires the local
description to be rolled back and an answer to be sent; but when
`signalingState` is still `stable` the rollback attempt is rejected by the
underlying state machine, the error is swallowed, and the offer is dropped:
no state change and no outbound message. -/
theorem C2_cex_polite_collision_drops_offer :
    isPolite eCex2.localSocketId uB = true ∧
    (lookupA uB eCex2.makingOffer).getD false = true ∧
    eCex2.conns[0]? = some pcCex2 ∧
    handleSignal eCex2 uB (.sdp offerIn) = (eCex2, []) := by
  refine ⟨isPolite_uA_uB, by decide, rfl, ?_⟩
  simp [handleSignal, isOfferSignal, getOrCreatePC, handleOffer, lookupA,
    setLocalDescriptionPC, isPolite_uA_uB, eCex2, pcCex2, offerIn]

/-- Claim C2 (amended): when handleIncoming receives an offer with a
collision, the impolite side ignores it with no state change and no
outbound message; the polite side first rolls back and then attaches local
tracks, sets the remote description, drains queued ICE candidates, creates
and sets an answer and sends it back — except that when the collision holds
while `signalingState` is `stable` (offer flag set, local description not
yet installed) or the session is `closed`, the rollback attempt fails and
the offer is dropped silently with no answer. -/
theorem C2_offer_glare (e : Engine) (u : String) (i : Nat) (pc : PC)
    (d : SessionDescription) (ts : List Track) (ps : List IceCandidate)
    (hready : e.isStreamReady = true)
    (hstream : e.localStream = some ts)
    (hreg : lookupA u e.registry = some i)
    (hpc : e.conns[i]? = some pc)
    (hps : lookupA u e.pendingIce = some ps)
    (hd : d.sdpType = .offer) :
    (isPolite e.localSocketId u = false →
      ((lookupA u e.makingOffer).getD false = true ∨
        pc.signalingState ≠ .stable) →
      handleSignal e u (.sdp d) = (e, [])) ∧
    (isPolite e.localSocketId u = true →
      (lookupA u e.makingOffer).getD false = true →
      pc.signalingState = .stable →
      handleSignal e u (.sdp d) = (e, [])) ∧
    (isPolite e.localSocketId u = true →
      pc.signalingState = .closed →
      handleSignal e u (.sdp d) = (e, [])) ∧
    ((((lookupA u e.makingOffer).getD false = false ∧
        pc.signalingState = .stable) ∨
      (isPolite e.localSocketId u = true ∧
        (pc.signalingState = .haveLocalOffer ∨
          pc.signalingState = .haveRemoteOffer))) →
      (handleSignal e u (.sdp d)).2 =
        [{ dest := u, data := .sdp { sdpType := .answer, iceRestart := false } }] ∧
      lookupA u (handleSignal e u (.sdp d)).1.registry = some i ∧
      (handleSignal e u (.sdp d)).1.conns[i]? = some
        { signalingState := .stable
          connectionState := pc.connectionState
          localDescription := some { sdpType := .answer, iceRestart := false }
          remoteDescription := some d
          senders := pc.senders ++
            ts.filter (fun t => ¬ (pc.senders.map (·.tid)).contains t.tid)
          appliedCandidates :=
            pc.appliedCandidates ++ ps.filter (fun c => c.valid) } ∧
      lookupA u (handleSignal e u (.sdp d)).1.pendingIce = some []) := by
  have hHS : handleSignal e u (.sdp d) = handleOffer e i u d := by
    simp [handleSignal, hready, isOfferSignal, hd, getOrCreatePC, hreg]
  refine ⟨?_, ?_, ?_, ?_⟩
  · intro himp hcol
    rw [hHS]
    rcases hcol with hmo | hss
    · simp [handleOffer, hpc, himp, hmo]
    · simp [handleOffer, hpc, himp, hss]
  · intro hpol hmo hss
    rw [hHS]
    simp [handleOffer, hpc, hpol, hmo, hss, setLocalDescriptionPC]
  · intro hpol hss
    rw [hHS]
    simp [handleOffer, hpc, hpol, hss, setLocalDescriptionPC]
  · intro hOK
    rw [hHS]
    rcases hOK with ⟨hmo, hss⟩ | ⟨hpol, hss | hss⟩
    · exact handleOffer_accept e i u d pc pc ts ps hpc hstream hreg hps hd
        (by simp [hmo, hss]) (by simp [hmo, hss]) hss
    · exact handleOffer_accept e i u d pc
        { pc with signalingState := .stable, localDescription := none } ts ps
        hpc hstream hreg hps hd (by simp [hpol])
        (by simp [hpol, hss, setLocalDescriptionPC]) rfl
    · exact handleOffer_accept e i u d pc
        { pc with signalingState := .stable, remoteDescription := none } ts ps
        hpc hstream hreg hps hd (by simp [hpol])
        (by simp [hpol, hss, setLocalDescriptionPC]) rfl

/-- C2 witness fixture: a glare state (local offer in flight, local
description installed, `have-local-offer`) on the polite side, with one
queued ICE candidate. -/
def pcGlareW : PC :=
  { signalingState := .haveLocalOffer, connectionState := .connecting,
    localDescription := some { sdpType := .offer, iceRestart := false },
    remoteDescription := none, senders := [], appliedCandidates := [] }

/-- Engine state for the C2 witness. -/
def eGlareW : Engine :=
  { isStreamReady := true, localStream := some [mkAudioTrack],
    localSocketId := some uA, conns := [pcGlareW], registry := [(uB, 0)],
    makingOffer := [(uB, true)],
    pendingIce := [(uB, [{ cid := 1, valid := true }])],
    pendingSignals := [], timers := [] }

/-- Witness for the amended C2 at the glare fixture: the polite side rolls
back and answers. -/
theorem C2_offer_glare_witness :
    (handleSignal eGlareW uB (.sdp offerIn)).2 =
      [{ dest := uB,
          data := .sdp { sdpType := .answer, iceRestart := false } }] := by
  have h := C2_offer_glare eGlareW uB 0 pcGlareW offerIn [mkAudioTrack]
    [{ cid := 1, valid := true }] rfl rfl (by decide) rfl (by decide) rfl
  exact (h.2.2.2 (Or.inr ⟨isPolite_uA_uB, Or.inl rfl⟩)).1

/-- C3 witness fixture: a session for `uB` with no remote description and an
empty pending-ICE map. -/
def eWit3 : Engine :=
  { isStreamReady := true, localStream := some [mkAudioTrack],
    localSocketId := some uA, conns := [pcCex2], registry := [(uB, 0)],
    makingOffer := [], pendingIce := [], pendingSignals := [], timers := [] }

/-- Witness for C3: a candidate arriving before any remote description is
queued. -/
theorem C3_ice_candidate_handling_witness :
    handleSignal eWit3 uB (.candidate { cid := 5, valid := true }) =
      ({ eWit3 with
          pendingIce := setA uB [{ cid := 5, valid := true }] eWit3.pendingIce },
        []) := by
  have h := C3_ice_candidate_handling eWit3 uB 0 pcCex2
    { cid := 5, valid := true } (by decide) rfl
  exact h.1 rfl

/-- On a closed connection, adding any nonempty track list throws at the
first track. -/
theorem addTracksList_closed (l : List Track) (pc : PC)
    (h : pc.signalingState = .closed) (hl : l ≠ []) :
    addTracksList pc l = .error () := by
  cases l with
  | nil => exact absurd rfl hl
  | cons t ts => simp [addTracksList, addTrackPC, h]

/-- Claim C5: createOfferTo proceeds only when local media is ready and the
session's signaling state allows it: if media is still not ready after the
bounded wait it aborts as a no-op sending nothing; a session mid-negotiation
is skipped; on a stable (or fresh) session it marks `isMakingOffer`,
attaches local tracks idempotently (by track identity), creates an offer,
sets it as local description, sends it, and clears `isMakingOffer`; on a
closed session every step of the try body fails, nothing is sent, and the
flag is still cleared — `isMakingOffer` ends up false regardless of
outcome. -/
theorem C5_createOfferTo (e0 eAfter : Engine) (u : String) :
    (streamReadyFor e0 = false → streamReadyFor eAfter = false →
      createOfferTo e0 eAfter u = (eAfter, [])) ∧
    (∀ i pc, streamReadyFor e0 = true →
      lookupA u e0.registry = some i → e0.conns[i]? = some pc →
      (pc.signalingState = .haveLocalOffer ∨
        pc.signalingState = .haveRemoteOffer) →
      createOfferTo e0 eAfter u = (e0, [])) ∧
    (∀ i pc ts, streamReadyFor e0 = true → e0.localStream = some ts →
      lookupA u e0.registry = some i → e0.conns[i]? = some pc →
      pc.signalingState = .stable →
      createOfferTo e0 eAfter u =
        offerFinally u
          (offerTryBody { e0 with makingOffer := setA u true e0.makingOffer }
            i u) ∧
      (createOfferTo e0 eAfter u).2 =
        [{ dest := u,
            data := .sdp { sdpType := .offer, iceRestart := false } }] ∧
      (createOfferTo e0 eAfter u).1.conns[i]? = some
        { signalingState := .haveLocalOffer
          connectionState := pc.connectionState
          localDescription := some { sdpType := .offer, iceRestart := false }
          remoteDescription := pc.remoteDescription
          senders := pc.senders ++
            ts.filter (fun t => ¬ (pc.senders.map (·.tid)).contains t.tid)
          appliedCandidates := pc.appliedCandidates } ∧
      lookupA u (createOfferTo e0 eAfter u).1.makingOffer = some false) ∧
    (∀ i pc, streamReadyFor e0 = true →
      lookupA u e0.registry = some i → e0.conns[i]? = some pc →
      pc.signalingState = .closed →
      createOfferTo e0 eAfter u =
        ({ e0 with makingOffer := setA u false (setA u true e0.makingOffer) },
          [])) ∧
    (∀ r : Engine × List OutMsg,
      lookupA u (offerFinally u r).1.makingOffer = some false) ∧
    (∀ (pc2 : PC) (ts2 : List Track), pc2.signalingState ≠ .closed →
      ∀ pc3, addLocalTracksToConnection (some ts2) pc2 = .ok pc3 →
        addLocalTracksToConnection (some ts2) pc3 = .ok pc3) := by
  refine ⟨?_, ?_, ?_, ?_, ?_, ?_⟩
  · intro h0 h1
    simp [createOfferTo, h0, h1]
  · intro i pc h0 hreg hpc hmid
    rcases hmid with hss | hss <;>
      simp [createOfferTo, h0, getOrCreatePC, hreg, hpc, hss]
  · intro i pc ts h0 hstream hreg hpc hss
    have hlt : i < e0.conns.length := get_some_lt hpc
    have hnc : pc.signalingState ≠ SignalingState.closed := by
      rw [hss]
      exact fun hcon => by cases hcon
    have hadd := addLocalTracksToConnection_ok ts pc hnc
    refine ⟨?_, ?_, ?_, ?_⟩ <;>
      simp [createOfferTo, h0, getOrCreatePC, hreg, hpc, hss, offerTryBody,
        offerFinally, hstream, hadd, createOfferPC, setLocalDescriptionPC,
        setConn, list_get_set_self _ _ _ hlt, lookupA_setA_self]
  · intro i pc h0 hreg hpc hss
    have hset : e0.conns.set i pc = e0.conns := list_set_self hpc
    obtain ⟨ts, hts⟩ : ∃ ts, e0.localStream = some ts := by
      rcases hs : e0.localStream with _ | ts
      · exfalso
        simp [streamReadyFor, hs] at h0
      · exact ⟨ts, rfl⟩
    by_cases hfil :
        ts.filter (fun t => ¬ (pc.senders.map (·.tid)).contains t.tid) = []
    · have hadd : addLocalTracksToConnection e0.localStream pc = .ok pc := by
        rw [hts]
        simp only [addLocalTracksToConnection, hfil]
        rfl
      simp [createOfferTo, h0, getOrCreatePC, hreg, hpc, hss, offerTryBody,
        offerFinally, hadd, createOfferPC, setConn, hset]
    · have hadd : addLocalTracksToConnection e0.localStream pc = .error () := by
        rw [hts]
        simp only [addLocalTracksToConnection]
        exact addTracksList_closed _ pc hss hfil
      simp [createOfferTo, h0, getOrCreatePC, hreg, hpc, hss, offerTryBody,
        offerFinally, hadd]
  · intro r
    exact lookupA_setA_self u false _
  · intro pc2 ts2 hnc pc3 hadd
    rw [addLocalTracksToConnection_ok ts2 pc2 hnc] at hadd
    injection hadd with hR
    subst hR
    have hfil : ts2.filter
        (fun t => ¬ (((pc2.senders ++
          ts2.filter
            (fun t => ¬ (pc2.senders.map (·.tid)).contains t.tid)).map
              (·.tid)).contains t.tid)) = [] := by
      rw [List.filter_eq_nil_iff]
      intro a ha
      simp
      intro h
      exact ⟨a, ha, h, rfl⟩
    simp only [addLocalTracksToConnection, hfil, addTracksList]

/-- C5 witness fixture: a stable session for `uB`, ready stream. -/
def eWit5 : Engine :=
  { isStreamReady := true, localStream := some [mkAudioTrack],
    localSocketId := some uA, conns := [pcCex2], registry := [(uB, 0)],
    makingOffer := [], pendingIce := [], pendingSignals := [], timers := [] }

/-- Witness for C5 at the stable fixture: the offer is sent and the
making-offer flag ends false. -/
theorem C5_createOfferTo_witness :
    (createOfferTo eWit5 eWit5 uB).2 =
      [{ dest := uB,
          data := .sdp { sdpType := .offer, iceRestart := false } }] ∧
    lookupA uB (createOfferTo eWit5 eWit5 uB).1.makingOffer = some false := by
  have h := (C5_createOfferTo eWit5 eWit5 uB).2.2.1 0 pcCex2 [mkAudioTrack]
    rfl rfl (by decide) rfl rfl
  exact ⟨h.2.1, h.2.2.2⟩

/-! ### Session-registry invariant (Claim C6) -/

/-- A live connection: neither `failed` nor `closed`. -/
def livePC (pc : PC) : Bool :=
  !(pc.connectionState = ConnectionState.failed : Bool) &&
    !(pc.connectionState = ConnectionState.closed : Bool)

/-- Invariant: every live connection in the store is the currently
registered session of some peer; since the registry maps each peer id to at
most one index, this bounds the live sessions per peer identifier to one. -/
def registeredLive (e : Engine) : Prop :=
  ∀ j pcj, e.conns[j]? = some pcj → livePC pcj = true →
    ∃ v, lookupA v e.registry = some j

theorem livePC_iff (pc : PC) : livePC pc = true ↔
    (pc.connectionState ≠ ConnectionState.failed ∧
      pc.connectionState ≠ ConnectionState.closed) := by
  simp [livePC]

/-- `installNewPC` preserves the registration invariant provided every live
connection of the base state is registered to a peer other than `u`. -/
theorem installNewPC_inv (e : Engine) (u : String)
    (h : ∀ j pcj, e.conns[j]? = some pcj → livePC pcj = true →
      ∃ v, ¬ v = u ∧ lookupA v e.registry = some j) :
    registeredLive (installNewPC e u).1 := by
  intro j pcj hj hlive
  have hconns : (installNewPC e u).1.conns =
      e.conns ++ [newPC { e with pendingIce := setA u [] e.pendingIce }] := rfl
  have hrg : (installNewPC e u).1.registry =
      setA u e.conns.length e.registry := rfl
  rw [hconns] at hj
  rw [hrg]
  by_cases hjl : j < e.conns.length
  · rw [list_get_append_lt _ _ hjl] at hj
    obtain ⟨v, hvu, hv⟩ := h j pcj hj hlive
    refine ⟨v, ?_⟩
    rw [lookupA_setA_of_ne (fun hh => hvu hh.symm), hv]
  · have hlen : j < e.conns.length + 1 := by
      have h2 := get_some_lt hj
      simpa using h2
    have hje : j = e.conns.length := by omega
    subst hje
    exact ⟨u, lookupA_setA_self u _ _⟩

/-- Claim C6: at most one peer session exists per peer identifier:
getOrCreate (`createPeerConnection` with `forceNew = false`) returns the
existing session unless its connection state is failed or closed, in which
case the stale connection is closed before a replacement is installed under
the same identifier; the every-live-connection-is-registered invariant is
preserved, so recreation never leaves two live sessions for one peer id —
exactly one (the fresh, live one) remains registered. -/
theorem C6_session_registry (e : Engine) (u : String) :
    (∀ i pc, lookupA u e.registry = some i → e.conns[i]? = some pc →
      livePC pc = true → createPeerConnection e u false = (e, i)) ∧
    (∀ i pc, lookupA u e.registry = some i → e.conns[i]? = some pc →
      livePC pc = false →
      (createPeerConnection e u false).2 = e.conns.length ∧
      (createPeerConnection e u false).1.conns[i]? = some (closePC pc) ∧
      lookupA u (createPeerConnection e u false).1.registry =
        some e.conns.length ∧
      (createPeerConnection e u false).1.conns[e.conns.length]? =
        some (newPC e) ∧
      livePC (newPC e) = true) ∧
    (∀ f : Bool, registeredLive e →
      (f = true → ∀ i pc, lookupA u e.registry = some i →
        e.conns[i]? = some pc → livePC pc = false) →
      registeredLive (createPeerConnection e u f).1) := by
  refine ⟨?_, ?_, ?_⟩
  · intro i pc hreg hpc hlive
    obtain ⟨h1, h2⟩ := (livePC_iff pc).mp hlive
    simp [createPeerConnection, hreg, hpc, h1, h2]
  · intro i pc hreg hpc hnl
    have hlt : i < e.conns.length := get_some_lt hpc
    have hnand : ¬ (pc.connectionState ≠ ConnectionState.failed ∧
        pc.connectionState ≠ ConnectionState.closed) := by
      rw [← livePC_iff]
      simp [hnl]
    have hstep : createPeerConnection e u false =
        installNewPC (setConn e i (closePC pc)) u := by
      simp [createPeerConnection, hreg, hpc, hnand]
    have hlenset : (e.conns.set i (closePC pc)).length = e.conns.length := by
      simp
    refine ⟨?_, ?_, ?_, ?_, rfl⟩
    · rw [hstep]
      simp [installNewPC, setConn]
    · rw [hstep]
      have hc : (installNewPC (setConn e i (closePC pc)) u).1.conns =
          (e.conns.set i (closePC pc)) ++
            [newPC { setConn e i (closePC pc) with
                pendingIce := setA u [] e.pendingIce }] := rfl
      rw [hc, list_get_append_lt _ _ (by simpa using hlt),
        list_get_set_self _ _ _ hlt]
    · rw [hstep]
      have hr : (installNewPC (setConn e i (closePC pc)) u).1.registry =
          setA u (e.conns.set i (closePC pc)).length e.registry := rfl
      rw [hr, lookupA_setA_self, hlenset]
    · rw [hstep]
      have hc : (installNewPC (setConn e i (closePC pc)) u).1.conns =
          (e.conns.set i (closePC pc)) ++
            [newPC { setConn e i (closePC pc) with
                pendingIce := setA u [] e.pendingIce }] := rfl
      rw [hc, ← hlenset, list_get_append_self]
      simp [newPC, setConn]
  · intro f hinv hguard
    rcases hreg2 : lookupA u e.registry with _ | i
    · have hstep : createPeerConnection e u f = installNewPC e u := by
        simp [createPeerConnection, hreg2]
      rw [hstep]
      refine installNewPC_inv e u ?_
      intro k pck hk hlk
      obtain ⟨v, hv⟩ := hinv k pck hk hlk
      refine ⟨v, ?_, hv⟩
      intro hvu
      subst hvu
      rw [hreg2] at hv
      cases hv
    · by_cases hf : f = true
      · subst hf
        have hstep : createPeerConnection e u true = installNewPC e u := by
          simp [createPeerConnection, hreg2]
        rw [hstep]
        refine installNewPC_inv e u ?_
        intro k pck hk hlk
        obtain ⟨v, hv⟩ := hinv k pck hk hlk
        refine ⟨v, ?_, hv⟩
        intro hvu
        subst hvu
        rw [hreg2] at hv
        injection hv with hki
        rw [hki] at hreg2
        have hdead := hguard rfl k pck hreg2 hk
        rw [hdead] at hlk
        cases hlk
      · have hf2 : f = false := by
          cases f
          · rfl
          · exact absurd rfl hf
        subst hf2
        rcases hpc2 : e.conns[i]? with _ | pc
        · have hstep : createPeerConnection e u false = installNewPC e u := by
            simp [createPeerConnection, hreg2, hpc2]
          rw [hstep]
          refine installNewPC_inv e u ?_
          intro k pck hk hlk
          obtain ⟨v, hv⟩ := hinv k pck hk hlk
          refine ⟨v, ?_, hv⟩
          intro hvu
          subst hvu
          rw [hreg2] at hv
          injection hv with hki
          subst hki
          rw [hpc2] at hk
          cases hk
        · by_cases hlv : livePC pc = true
          · obtain ⟨h1, h2⟩ := (livePC_iff pc).mp hlv
            have hstep : createPeerConnection e u false = (e, i) := by
              simp [createPeerConnection, hreg2, hpc2, h1, h2]
            rw [hstep]
            exact hinv
          · have hnand : ¬ (pc.connectionState ≠ ConnectionState.failed ∧
                pc.connectionState ≠ ConnectionState.closed) := by
              rw [← livePC_iff]
              simp only [Bool.not_eq_true] at hlv
              simp [hlv]
            have hstep : createPeerConnection e u false =
                installNewPC (setConn e i (closePC pc)) u := by
              simp [createPeerConnection, hreg2, hpc2, hnand]
            rw [hstep]
            refine installNewPC_inv (setConn e i (closePC pc)) u ?_
            intro k pck hk hlk
            have hkc : (setConn e i (closePC pc)).conns =
                e.conns.set i (closePC pc) := rfl
            rw [hkc] at hk
            by_cases hki : i = k
            · subst hki
              rw [list_get_set_self _ _ _ (get_some_lt hpc2)] at hk
              injection hk with hk2
              subst hk2
              simp [livePC, closePC] at hlk
            · rw [list_get_set_of_ne _ _ hki] at hk
              obtain ⟨v, hv⟩ := hinv k pck hk hlk
              refine ⟨v, ?_, hv⟩
              intro hvu
              subst hvu
              rw [hreg2] at hv
              injection hv with hki2
              exact hki hki2

/-- C6 witness fixture: a failed session for `uB`. -/
def pcFailed : PC :=
  { signalingState := .stable, connectionState := .failed,
    localDescription := some { sdpType := .answer, iceRestart := false },
    remoteDescription := some { sdpType := .offer, iceRestart := false },
    senders := [], appliedCandidates := [] }

/-- Engine state for the C6 witness. -/
def eWit6 : Engine :=
  { isStreamReady := true, localStream := some [mkAudioTrack],
    localSocketId := some uA, conns := [pcFailed], registry := [(uB, 0)],
    makingOffer := [], pendingIce := [], pendingSignals := [], timers := [] }

/-- Witness for C6: recreating after `failed` closes the stale connection
and installs exactly one fresh live session under the same id. -/
theorem C6_session_registry_witness :
    (createPeerConnection eWit6 uB false).1.conns[0]? =
        some (closePC pcFailed) ∧
    lookupA uB (createPeerConnection eWit6 uB false).1.registry = some 1 ∧
    (createPeerConnection eWit6 uB false).1.conns[1]? = some (newPC eWit6) ∧
    livePC (newPC eWit6) = true := by
  have h := (C6_session_registry eWit6 uB).2.1 0 pcFailed (by decide) rfl
    (by decide)
  exact ⟨h.2.1, h.2.2.1, h.2.2.2.1, h.2.2.2.2⟩

/-! ### Recovery-timer behaviour (Claim C7) -/

/-- A connected session used by the C7 scenario. -/
def pcConn : PC :=
  { signalingState := .stable, connectionState := .connected,
    localDescription := some { sdpType := .answer, iceRestart := false },
    remoteDescription := some { sdpType := .offer, iceRestart := false },
    senders := [mkAudioTrack], appliedCandidates := [] }

/-- C7 base fixture: one connected session for `uB`, ready local stream. -/
def eWit7 : Engine :=
  { isStreamReady := true, localStream := some [mkAudioTrack],
    localSocketId := some uA, conns := [pcConn], registry := [(uB, 0)],
    makingOffer := [], pendingIce := [(uB, [])], pendingSignals := [],
    timers := [] }

/-- The C7 double-failure scenario: the connection fails, briefly recovers
to `connecting`, and fails again before the first 2 s delay elapses. -/
def e7twice : Engine :=
  onConnectionStateChange
    (onConnectionStateChange (onConnectionStateChange eWit7 uB .failed)
      uB .connecting) uB .failed

/-- Claim C7 counterexample: when the session transitions to `failed` again
before recovery completes, the code schedules a second recreation timer —
two timers are pending, not the single scheduled recreation the claim
states. -/
theorem C7_cex_two_timers_scheduled :
    e7twice.timers = [uB, uB] ∧ ¬ e7twice.timers.length = 1 := by
  refine ⟨by decide, by decide⟩

/-- Claim C7 (amended): every transition to `failed` schedules its own
recreation timer after the fixed 2 s delay (so a second failure before
recovery schedules a second timer); each timer's action re-checks the
current state of the peer's registered connection before acting, so a timer
firing when that connection is no longer `failed` is a no-op, and firing
the two timers of the double-failure scenario performs exactly one
recreation attempt: the connection is forcibly replaced, local tracks are
reattached, and a single fresh offer with the ICE-restart flag set is
sent. -/
theorem C7_failed_recovery :
    (∀ (e : Engine) (u : String) (i : Nat) (pc : PC),
      lookupA u e.registry = some i → e.conns[i]? = some pc →
      (onConnectionStateChange e u .failed).timers = e.timers ++ [u]) ∧
    (∀ (e : Engine) (u : String) (i : Nat) (pc : PC),
      lookupA u e.registry = some i → e.conns[i]? = some pc →
      ¬ pc.connectionState = .failed → timerAction e u = (e, [])) ∧
    ((fireAllTimers e7twice).1.conns.length = e7twice.conns.length + 1 ∧
      (fireAllTimers e7twice).2 =
        [{ dest := uB,
            data := .sdp { sdpType := .offer, iceRestart := true } }] ∧
      lookupA uB (fireAllTimers e7twice).1.registry = some 1 ∧
      ((fireAllTimers e7twice).1.conns[1]?).map PC.signalingState =
        some .haveLocalOffer ∧
      ((fireAllTimers e7twice).1.conns[1]?).map PC.senders =
        some [mkAudioTrack]) := by
  refine ⟨?_, ?_, ?_⟩
  · intro e u i pc hreg hpc
    simp [onConnectionStateChange, hreg, hpc, setConn]
  · intro e u i pc hreg hpc hnf
    simp [timerAction, hreg, hpc, hnf]
  · refine ⟨by decide, by decide, by decide, by decide, by decide⟩

/-- Witness for C7's re-check clause: a timer firing while the registered
connection is healthy does nothing. -/
theorem C7_failed_recovery_witness : timerAction eWit7 uB = (eWit7, []) :=
  C7_failed_recovery.2.1 eWit7 uB 0 pcConn (by decide) rfl (by decide)

end ConnectifyWebRTC
